import Mathlib

/-!
Verification of the BRAINWAVE InsightGPT frontend against its
natural-language specification.

The repository is a TypeScript/React single-page application.  The
definitions below are a shallow embedding of the data model
(`src/frontend/lib/api.ts`) and of the pure computations performed by the
UI components: the risk statistics and heatmap bucketing of
`AnalysisPanel.tsx` / `RiskHeatmap`, the readability statistics of
`ReadabilityPanel`, the document search filter of the documents page, the
auth-token storage helpers of `auth-fetch.ts`, and the
initial-analysis polling step of the chat page.

Modelling conventions:
* JavaScript numbers are modelled as exact rationals (`ℚ`); none of the
  verified properties depend on float rounding.
* JavaScript truthiness of a string-or-null value is modelled explicitly:
  `null` and the empty string are falsy, every other string is truthy.
* `localStorage` and header objects are modelled as functions
  `String → Option String` with pointwise update, matching JS object /
  storage key semantics.
-/

namespace InsightGPT

/-- `RiskLevel` from `src/frontend/lib/api.ts`:
`type RiskLevel = "low" | "moderate" | "attention"`. -/
inductive RiskLevel where
  | low
  | moderate
  | attention
deriving DecidableEq, Repr

/-- `ReadabilityMetrics` from `src/frontend/lib/api.ts`. -/
structure ReadabilityMetrics where
  original_grade : ℚ
  summary_grade : ℚ
  delta : ℚ
  flesch_score : ℚ
deriving DecidableEq, Repr

/-- `ClauseSummary` from `src/frontend/lib/api.ts`. -/
structure ClauseSummary where
  clause_id : String
  order : Nat
  category : String
  risk_level : RiskLevel
  summary : String
  language : Option String
  readability_metrics : Option ReadabilityMetrics
  needs_review : Bool
deriving DecidableEq, Repr

/-- JS truthiness fallback `x || d` for a number: `0` is falsy. -/
def jsOrQ (x d : ℚ) : ℚ :=
  if x = 0 then d else x

/-- JS truthiness of a `string | null` value: `null` and `""` are falsy. -/
def jsTruthyOptStr : Option String → Bool
  | some s => s ≠ ""
  | none => false

/-! ## AnalysisPanel quick stats (`src/frontend/components/AnalysisPanel.tsx`) -/

/-- `const totalClauses = clauses.length;` -/
def totalClauses (clauses : List ClauseSummary) : Nat :=
  clauses.length

/-- `clauses.filter((c) => c.risk_level === "attention").length` -/
def highRiskCount (clauses : List ClauseSummary) : Nat :=
  (clauses.filter fun c => c.risk_level == RiskLevel.attention).length

/-- `clauses.filter((c) => c.risk_level === "moderate").length` -/
def moderateRiskCount (clauses : List ClauseSummary) : Nat :=
  (clauses.filter fun c => c.risk_level == RiskLevel.moderate).length

/-- `clauses.filter((c) => c.risk_level === "low").length` -/
def lowRiskCount (clauses : List ClauseSummary) : Nat :=
  (clauses.filter fun c => c.risk_level == RiskLevel.low).length

/-- `Math.round` on a nonnegative value: round half away from zero.
For the nonnegative arguments produced by `riskScore` this is
`⌊x + 1/2⌋`, which is exactly JS `Math.round` there. -/
def jsRound (x : ℚ) : ℤ :=
  ⌊x + 1 / 2⌋

/-- The weighted risk sum `highRiskCount * 3 + moderateRiskCount * 1.5 +
lowRiskCount * 0.5` from `AnalysisPanel.tsx` line 37. -/
def weightedRiskSum (clauses : List ClauseSummary) : ℚ :=
  (highRiskCount clauses : ℚ) * 3 + (moderateRiskCount clauses : ℚ) * 1.5
    + (lowRiskCount clauses : ℚ) * 0.5

/-- The overall risk score from `AnalysisPanel.tsx` lines 36-38:
guarded by `totalClauses > 0`, otherwise `0`. -/
def riskScore (clauses : List ClauseSummary) : ℤ :=
  if 0 < totalClauses clauses then
    jsRound (weightedRiskSum clauses / ((totalClauses clauses : ℚ) * 3) * 100)
  else 0

/-! ## Documents page search filter (documents page, `filteredDocuments`) -/

/-- `Document` as declared on the documents page. -/
structure Document where
  doc_id : String
  filename : String
  status : String
  created_at : Option String
  page_count : Nat
  clause_count : Nat
  language : String
  user_id : Option String
deriving DecidableEq, Repr

/-- JS `String.prototype.includes` on character lists: `q` occurs as a
contiguous substring (the empty string occurs in every string). -/
def listIncludes (q : List Char) : List Char → Bool
  | [] => q.isEmpty
  | c :: rest => q.isPrefixOf (c :: rest) || listIncludes q rest

/-- JS `s.includes(q)`. -/
def strIncludes (s q : String) : Bool :=
  listIncludes q.data s.data

/-- JS `toLowerCase()`, modelled as ASCII lowercasing (the filenames and
queries handled by the page; Unicode collation is not relevant to the
filter law). -/
def jsToLower (s : String) : String :=
  ⟨s.data.map Char.toLower⟩

/-- `documents.filter(doc => doc.filename.toLowerCase().includes(searchQuery.toLowerCase()))`
from the documents page. -/
def filteredDocuments (documents : List Document) (searchQuery : String) : List Document :=
  documents.filter fun doc => strIncludes (jsToLower doc.filename) (jsToLower searchQuery)

/-! ## ReadabilityPanel statistics (`ReadabilityPanel`, `stats` useMemo) -/

/-- The per-clause difficulty level of `ReadabilityPanel`. -/
inductive ClauseLevel where
  | easy
  | moderate
  | difficult
  | expert
deriving DecidableEq, Repr

/-- `ClauseReadability` from `ReadabilityPanel`. -/
structure ClauseReadability where
  clause : ClauseSummary
  grade : ℚ
  fleschScore : ℚ
  level : ClauseLevel
deriving DecidableEq, Repr

/-- The document-level readability classification of `ReadabilityPanel`. -/
inductive DocReadabilityLevel where
  | excellent
  | good
  | fair
  | difficult
  | veryDifficult
deriving DecidableEq, Repr

/-- `difficultyDistribution` record. -/
structure Distribution where
  easy : Nat
  moderate : Nat
  difficult : Nat
  veryDifficult : Nat
deriving DecidableEq, Repr

/-- `ReadabilityStats` from `ReadabilityPanel`. -/
structure ReadabilityStats where
  averageGrade : ℚ
  averageFleschScore : ℚ
  totalClauses : Nat
  highlyDifficultClauses : Nat
  veryDifficultClauses : Nat
  readabilityLevel : DocReadabilityLevel
  difficultyDistribution : Distribution
  difficultClauses : List ClauseReadability
deriving DecidableEq, Repr

/-- `getReadabilityLevel` from `ReadabilityPanel`. -/
def getReadabilityLevel (grade : ℚ) : DocReadabilityLevel :=
  if grade ≤ 6 then .excellent
  else if grade ≤ 9 then .good
  else if grade ≤ 13 then .fair
  else if grade ≤ 16 then .difficult
  else .veryDifficult

/-- Accumulator of the `clauses.forEach` loop in the `stats` useMemo. -/
structure StatsAcc where
  totalOriginalGrade : ℚ
  totalFleschScore : ℚ
  validClauses : Nat
  highlyDifficultCount : Nat
  veryDifficultCount : Nat
  distribution : Distribution
  difficultClausesList : List ClauseReadability
deriving DecidableEq, Repr

/-- Initial accumulator: all counters zero, empty list. -/
def initStatsAcc : StatsAcc :=
  { totalOriginalGrade := 0
    totalFleschScore := 0
    validClauses := 0
    highlyDifficultCount := 0
    veryDifficultCount := 0
    distribution := { easy := 0, moderate := 0, difficult := 0, veryDifficult := 0 }
    difficultClausesList := [] }

/-- One iteration of the `clauses.forEach` body: clauses without
`readability_metrics` are skipped; `grade` and `fleschScore` use the JS
falsy-number fallbacks `original_grade || 12` and `flesch_score || 50`. -/
def statsStep (acc : StatsAcc) (clause : ClauseSummary) : StatsAcc :=
  match clause.readability_metrics with
  | none => acc
  | some m =>
    let grade := jsOrQ m.original_grade 12
    let fleschScore := jsOrQ m.flesch_score 50
    let acc1 : StatsAcc :=
      { acc with
        totalOriginalGrade := acc.totalOriginalGrade + grade
        totalFleschScore := acc.totalFleschScore + fleschScore
        validClauses := acc.validClauses + 1 }
    if 16 < grade then
      { acc1 with
        veryDifficultCount := acc1.veryDifficultCount + 1
        distribution := { acc1.distribution with veryDifficult := acc1.distribution.veryDifficult + 1 }
        difficultClausesList :=
          acc1.difficultClausesList ++ [{ clause, grade, fleschScore, level := .expert }] }
    else if 13 < grade then
      { acc1 with
        highlyDifficultCount := acc1.highlyDifficultCount + 1
        distribution := { acc1.distribution with difficult := acc1.distribution.difficult + 1 }
        difficultClausesList :=
          acc1.difficultClausesList ++ [{ clause, grade, fleschScore, level := .difficult }] }
    else if 9 < grade then
      { acc1 with
        distribution := { acc1.distribution with moderate := acc1.distribution.moderate + 1 } }
    else
      { acc1 with
        distribution := { acc1.distribution with easy := acc1.distribution.easy + 1 } }

/-- Comparator of `difficultClausesList.sort((a, b) => b.grade - a.grade)`:
`a` may stay before `b` iff `b.grade - a.grade ≤ 0`. -/
def gradeDescLE (a b : ClauseReadability) : Bool :=
  decide (b.grade ≤ a.grade)

/-- The `stats` useMemo of `ReadabilityPanel`: the zero-stats record for an
empty (or absent) clause list, otherwise one `forEach` pass followed by the
guarded averages and the descending sort of the difficult clauses
(`Array.prototype.sort` is stable, as is `List.mergeSort`). -/
def readabilityStats (clauses : List ClauseSummary) : ReadabilityStats :=
  if clauses = [] then
    { averageGrade := 0
      averageFleschScore := 0
      totalClauses := 0
      highlyDifficultClauses := 0
      veryDifficultClauses := 0
      readabilityLevel := .fair
      difficultyDistribution := { easy := 0, moderate := 0, difficult := 0, veryDifficult := 0 }
      difficultClauses := [] }
  else
    let acc := clauses.foldl statsStep initStatsAcc
    let averageGrade := if 0 < acc.validClauses then acc.totalOriginalGrade / acc.validClauses else 12
    let averageFleschScore :=
      if 0 < acc.validClauses then acc.totalFleschScore / acc.validClauses else 50
    { averageGrade := averageGrade
      averageFleschScore := averageFleschScore
      totalClauses := clauses.length
      highlyDifficultClauses := acc.highlyDifficultCount
      veryDifficultClauses := acc.veryDifficultCount
      readabilityLevel := getReadabilityLevel averageGrade
      difficultyDistribution := acc.distribution
      difficultClauses := acc.difficultClausesList.mergeSort gradeDescLE }

/-- The metric-bearing clauses, paired with their metrics, in document
order (the clauses the `forEach` loop does not skip). -/
def metricEntries (clauses : List ClauseSummary) : List (ClauseSummary × ReadabilityMetrics) :=
  clauses.filterMap fun c => c.readability_metrics.map fun m => (c, m)

/-- The grade the loop computes for a metrics record. -/
def gradeOf (m : ReadabilityMetrics) : ℚ :=
  jsOrQ m.original_grade 12

/-- The Flesch score the loop computes for a metrics record. -/
def fleschOf (m : ReadabilityMetrics) : ℚ :=
  jsOrQ m.flesch_score 50

/-- Closed form of `totalOriginalGrade`. -/
def gradeSum (clauses : List ClauseSummary) : ℚ :=
  ((metricEntries clauses).map fun p => gradeOf p.2).sum

/-- Closed form of `totalFleschScore`. -/
def fleschSum (clauses : List ClauseSummary) : ℚ :=
  ((metricEntries clauses).map fun p => fleschOf p.2).sum

/-- Closed form of `validClauses`. -/
def validCount (clauses : List ClauseSummary) : Nat :=
  (metricEntries clauses).length

/-- Closed form of the unsorted difficult-clause list: the metric-bearing
clauses whose computed grade exceeds 13, in document order, graded
`expert` above 16 and `difficult` otherwise. -/
def difficultEntries (clauses : List ClauseSummary) : List ClauseReadability :=
  (metricEntries clauses).filterMap fun p =>
    if 16 < gradeOf p.2 then
      some { clause := p.1, grade := gradeOf p.2, fleschScore := fleschOf p.2, level := .expert }
    else if 13 < gradeOf p.2 then
      some { clause := p.1, grade := gradeOf p.2, fleschScore := fleschOf p.2, level := .difficult }
    else none

/-- The average reading grade as the specification sentence states it:
the arithmetic mean of the raw `original_grade` values of the
metric-bearing clauses (no falsy-zero fallback). -/
def claimedAverageGrade (clauses : List ClauseSummary) : ℚ :=
  ((metricEntries clauses).map fun p => p.2.original_grade).sum / validCount clauses

/-- The average Flesch score as the specification sentence states it. -/
def claimedAverageFleschScore (clauses : List ClauseSummary) : ℚ :=
  ((metricEntries clauses).map fun p => p.2.flesch_score).sum / validCount clauses

/-! ## RiskHeatmap data (`RiskHeatmap`, `heatmapData` useMemo) -/

/-- `const category = clause.category || "Other";` — the empty string is
falsy in JS, so it also falls back to `"Other"`. -/
def defaultCategory (clause : ClauseSummary) : String :=
  if clause.category = "" then "Other" else clause.category

/-- `CATEGORY_ORDER` from `RiskHeatmap`. -/
def CATEGORY_ORDER : List String :=
  ["Key Terms", "Requirements", "Risks", "Dependencies", "Financial", "Timeline",
    "Deliverables", "Compliance", "Resources", "Technical", "Other"]

/-- `RISK_LEVELS` from `RiskHeatmap`. -/
def RISK_LEVELS : List RiskLevel :=
  [.low, .moderate, .attention]

/-- `HeatmapCell` from `RiskHeatmap`. -/
structure HeatmapCell where
  category : String
  riskLevel : RiskLevel
  count : Nat
  percentage : ℚ
  clauses : List ClauseSummary
deriving DecidableEq, Repr

/-- The result record of the `heatmapData` useMemo. -/
structure HeatmapData where
  cells : List HeatmapCell
  categories : List String
deriving DecidableEq, Repr

/-- The inner `Map<RiskLevel, ClauseSummary[]>`, as an insertion-ordered
association list. -/
abbrev RiskMap := List (RiskLevel × List ClauseSummary)

/-- The outer `Map<string, Map<RiskLevel, ClauseSummary[]>>`. -/
abbrev CategoryRiskMap := List (String × RiskMap)

/-- Lookup in the inner map; a missing key yields `[]`
(`riskMap.get(riskLevel) || []`). -/
def rmLookup : RiskMap → RiskLevel → List ClauseSummary
  | [], _ => []
  | (k, v) :: rest, rl => if k = rl then v else rmLookup rest rl

/-- Get-or-create the risk-level entry and push the clause onto it, as the
loop body does (`Map` keeps insertion order; pushes append). -/
def rmInsert : RiskMap → RiskLevel → ClauseSummary → RiskMap
  | [], rl, c => [(rl, [c])]
  | (k, v) :: rest, rl, c =>
    if k = rl then (k, v ++ [c]) :: rest else (k, v) :: rmInsert rest rl c

/-- Lookup in the outer map; a missing category yields the empty risk map. -/
def cmLookup : CategoryRiskMap → String → RiskMap
  | [], _ => []
  | (k, v) :: rest, cat => if k = cat then v else cmLookup rest cat

/-- Get-or-create the category entry and insert the clause into its risk
map, as the `clauses.forEach` loop body does. -/
def cmInsert : CategoryRiskMap → String → RiskLevel → ClauseSummary → CategoryRiskMap
  | [], cat, rl, c => [(cat, rmInsert [] rl c)]
  | (k, v) :: rest, cat, rl, c =>
    if k = cat then (k, rmInsert v rl c) :: rest else (k, v) :: cmInsert rest cat rl c

/-- The `categoryRiskMap` built by the `clauses.forEach` loop. -/
def buildCategoryRiskMap (clauses : List ClauseSummary) : CategoryRiskMap :=
  clauses.foldl (fun m c => cmInsert m (defaultCategory c) c.risk_level c) []

/-- JS `Array.prototype.indexOf`, returning `-1` when absent. -/
def jsIndexOfAux : List String → String → Int → Int
  | [], _, _ => -1
  | x :: rest, s, i => if x = s then i else jsIndexOfAux rest s (i + 1)

/-- JS `CATEGORY_ORDER.indexOf(s)`-style index. -/
def jsIndexOf (xs : List String) (s : String) : Int :=
  jsIndexOfAux xs s 0

/-- `a.localeCompare(b)`, abstracted to code-point order.  The claims
proved below never depend on which total order breaks ties between
categories outside `CATEGORY_ORDER`. -/
def localeCompareModel (a b : String) : Int :=
  if a < b then -1 else if b < a then 1 else 0

/-- The category comparator of the `presentCategories` sort. -/
def categoryCompare (a b : String) : Int :=
  let aIndex := jsIndexOf CATEGORY_ORDER a
  let bIndex := jsIndexOf CATEGORY_ORDER b
  if aIndex = -1 ∧ bIndex = -1 then localeCompareModel a b
  else if aIndex = -1 then 1
  else if bIndex = -1 then -1
  else aIndex - bIndex

/-- The sort of `presentCategories` (`Array.prototype.sort` is stable, as
is `List.mergeSort`; an element may stay before another iff the comparator
is ≤ 0 on the pair). -/
def sortCategories (cats : List String) : List String :=
  cats.mergeSort fun a b => decide (categoryCompare a b ≤ 0)

/-- The cell built for one `(category, riskLevel)` pair in the
`presentCategories.forEach` / `RISK_LEVELS.forEach` nest. -/
def mkHeatmapCell (cm : CategoryRiskMap) (total : Nat) (category : String)
    (riskLevel : RiskLevel) : HeatmapCell :=
  let clausesInCell := rmLookup (cmLookup cm category) riskLevel
  let count := clausesInCell.length
  { category := category
    riskLevel := riskLevel
    count := count
    percentage := if 0 < total then (count : ℚ) / (total : ℚ) * 100 else 0
    clauses := clausesInCell }

/-- The `heatmapData` useMemo of `RiskHeatmap`. -/
def heatmapData (clauses : List ClauseSummary) : HeatmapData :=
  let categoryRiskMap := buildCategoryRiskMap clauses
  let presentCategories := sortCategories (categoryRiskMap.map Prod.fst)
  let cells :=
    presentCategories.flatMap fun category =>
      RISK_LEVELS.map fun riskLevel =>
        mkHeatmapCell categoryRiskMap clauses.length category riskLevel
  { cells := cells, categories := presentCategories }

/-! ## Auth token storage and authFetch (`src/frontend/lib/auth-fetch.ts`) -/

/-- Pointwise update of a JS object / storage (`obj[k] = v`,
`localStorage.setItem(k, v)`). -/
def objSet (m : String → Option String) (k v : String) : String → Option String :=
  fun q => if q = k then some v else m q

/-- Pointwise removal (`localStorage.removeItem(k)`). -/
def objRemove (m : String → Option String) (k : String) : String → Option String :=
  fun q => if q = k then none else m q

/-- The browser-visible state the auth helpers touch: whether a `window`
exists, the `localStorage` contents, and the `auth_token` cookie.  Writing
`document.cookie = "auth_token=...; max-age=604800"` stores the value;
writing it with `max-age=0` removes it — only that jar-level effect is
modelled. -/
structure Browser where
  hasWindow : Bool
  localStore : String → Option String
  authTokenCookie : Option String

/-- `getAuthToken`: `null` outside a browser, else the stored `token` entry. -/
def getAuthToken (b : Browser) : Option String :=
  if b.hasWindow then b.localStore "token" else none

/-- `setAuthToken`: a no-op outside a browser, else stores the token under
the `token` localStorage key and sets the `auth_token` cookie. -/
def setAuthToken (b : Browser) (token : String) : Browser :=
  if b.hasWindow then
    { b with
      localStore := objSet b.localStore "token" token
      authTokenCookie := some token }
  else b

/-- `clearAuthToken`: a no-op outside a browser, else removes the `token`
and `user` localStorage keys and clears the `auth_token` cookie
(`max-age=0`). -/
def clearAuthToken (b : Browser) : Browser :=
  if b.hasWindow then
    { b with
      localStore := objRemove (objRemove b.localStore "token") "user"
      authTokenCookie := none }
  else b

/-- The headers object `authFetch` sends: the headers given by the caller, with
`Authorization: Bearer <token>` assigned when the stored token is truthy
(`if (token)` — `null` and `""` are falsy), and `Content-Type:
application/json` assigned when a non-`FormData` body is present. -/
def authFetchHeaders (b : Browser) (optionHeaders : String → Option String)
    (hasBody isFormDataBody : Bool) : String → Option String :=
  let token := getAuthToken b
  let headers := optionHeaders
  let headers :=
    if jsTruthyOptStr token then
      objSet headers "Authorization" ("Bearer " ++ token.getD "")
    else headers
  if hasBody && !isFormDataBody then
    objSet headers "Content-Type" "application/json"
  else headers

/-- The response handling of `authFetch`: on status 401 the stored token is
cleared and (in a browser) the page is redirected to `/login`; any other
status leaves the browser state untouched.  Returns the browser state after
the call and whether a redirect was issued. -/
def authFetchAfter (b : Browser) (status : Nat) : Browser × Bool :=
  if status = 401 then (clearAuthToken b, b.hasWindow) else (b, false)

/-! ## Chat-page polling (`fetchDocumentAnalysis`, chat pages) -/

/-- The body of a `GET /api/v1/chat/{docId}/initial` response, together
with `response.ok`. -/
structure InitialAnalysisResponse where
  ok : Bool
  analysis : Option String
  status : String
deriving DecidableEq, Repr

/-- A chat message as the chat page stores it. -/
structure PageMessage where
  id : String
  role : String
  content : String
deriving DecidableEq, Repr

/-- The observable effect of one `fetchDocumentAnalysis` invocation. -/
structure FetchAnalysisEffect where
  documentInfoSet : Bool
  messagesSet : Option (List PageMessage)
  retryDelayMs : Option Nat
deriving DecidableEq, Repr

/-- One `fetchDocumentAnalysis` invocation (the decision logic shared by
both chat pages): on an ok response the document info is stored; a truthy
(`if (data.analysis)`) analysis becomes the single initial assistant
message; otherwise a `"processing"` status schedules
`setTimeout(fetchDocumentAnalysis, 2000)`. -/
def fetchDocumentAnalysisStep (r : InitialAnalysisResponse) : FetchAnalysisEffect :=
  if r.ok then
    if jsTruthyOptStr r.analysis then
      { documentInfoSet := true
        messagesSet := some [{ id := "initial", role := "assistant", content := r.analysis.getD "" }]
        retryDelayMs := none }
    else if r.status = "processing" then
      { documentInfoSet := true, messagesSet := none, retryDelayMs := some 2000 }
    else
      { documentInfoSet := true, messagesSet := none, retryDelayMs := none }
  else
    { documentInfoSet := false, messagesSet := none, retryDelayMs := none }

/-- The polling loop: each scheduled retry consumes the next response from
the backend; the trace records the effect of every invocation made, and
invocations continue exactly while the previous one scheduled a retry. -/
def pollTrace : List InitialAnalysisResponse → List FetchAnalysisEffect
  | [] => []
  | r :: rest =>
    let eff := fetchDocumentAnalysisStep r
    if eff.retryDelayMs.isSome then eff :: pollTrace rest else [eff]

/-! ## Chat sessions and sidebar links (`app-sidebar.tsx`) -/

/-- `ChatSession` as declared in `app-sidebar.tsx`. -/
structure ChatSession where
  session_id : String
  title : String
  document_ids : List String
  last_message_preview : String
deriving DecidableEq, Repr

/-- Modelled from the spec: the backend session store is not part of the
frontend sources; per the spec glossary a session is "a persisted chat
conversation tied to one or more uploaded documents", so every session the
backend delivers carries at least one document id. -/
def SessionWellFormed (s : ChatSession) : Prop :=
  s.document_ids ≠ []

/-- The sidebar chat link, built from the first document id with a JS
falsy fallback: indexing an empty array yields `undefined`, and both
`undefined` and an empty first id fall back to the empty string. -/
def sidebarChatHref (chat : ChatSession) : String :=
  let firstId :=
    match chat.document_ids.head? with
    | some v => if v = "" then "" else v
    | none => ""
  "/chat?doc=" ++ firstId

/-! ## Concrete sample data used by witnesses and counterexamples -/

/-- Sample metrics: a hard clause (grade 18, Flesch 30). -/
def hardMetrics : ReadabilityMetrics :=
  { original_grade := 18, summary_grade := 10, delta := 8, flesch_score := 30 }

/-- Sample metrics whose numeric fields are all zero (a grade of zero is a
legitimate Flesch-Kincaid output for trivial text). -/
def zeroMetrics : ReadabilityMetrics :=
  { original_grade := 0, summary_grade := 0, delta := 0, flesch_score := 0 }

/-- A sample high-risk clause carrying metrics. -/
def demoClauseA : ClauseSummary :=
  { clause_id := "c1", order := 1, category := "Financial", risk_level := .attention,
    summary := "termination fee", language := none, readability_metrics := some hardMetrics,
    needs_review := true }

/-- A sample low-risk clause without metrics and with an empty category. -/
def demoClauseB : ClauseSummary :=
  { clause_id := "c2", order := 2, category := "", risk_level := .low,
    summary := "notices", language := none, readability_metrics := none,
    needs_review := false }

/-- A clause whose metrics are all zero. -/
def zeroGradeClause : ClauseSummary :=
  { clause_id := "c0", order := 3, category := "Other", risk_level := .low,
    summary := "short", language := none, readability_metrics := some zeroMetrics,
    needs_review := false }

/-- A two-clause sample document. -/
def demoClauses : List ClauseSummary :=
  [demoClauseA, demoClauseB]

/-- A browser with empty storage. -/
def demoBrowser : Browser :=
  { hasWindow := true, localStore := fun _ => none, authTokenCookie := none }

/-- A browser whose stored token is the empty string: present in storage,
but falsy to `if (token)`. -/
def emptyTokenBrowser : Browser :=
  { hasWindow := true
    localStore := fun q => if q = "token" then some "" else none
    authTokenCookie := none }

/-- A browser holding the token `"tok"`. -/
def tokenBrowser : Browser :=
  { hasWindow := true
    localStore := fun q => if q = "token" then some "tok" else none
    authTokenCookie := some "tok" }

/-- An ok response that is still processing and carries no analysis. -/
def processingResponse : InitialAnalysisResponse :=
  { ok := true, analysis := none, status := "processing" }

/-- An ok response carrying a finished analysis. -/
def completedResponse : InitialAnalysisResponse :=
  { ok := true, analysis := some "done", status := "completed" }

/-- An ok, still-processing response whose analysis is the empty string:
non-null, but falsy to `if (data.analysis)`. -/
def emptyAnalysisResponse : InitialAnalysisResponse :=
  { ok := true, analysis := some "", status := "processing" }

/-- A sample chat session over one document. -/
def demoSession : ChatSession :=
  { session_id := "s1", title := "lease", document_ids := ["d1"],
    last_message_preview := "hello" }

/-! ## Helper lemmas -/

/-- The three risk-level filters partition the clause list. -/
theorem riskCounts_sum (clauses : List ClauseSummary) :
    highRiskCount clauses + moderateRiskCount clauses + lowRiskCount clauses
      = totalClauses clauses := by
  induction clauses with
  | nil => rfl
  | cons c cs ih =>
    rcases hrl : c.risk_level <;>
      simp [highRiskCount, moderateRiskCount, lowRiskCount, totalClauses,
        List.filter_cons, hrl] at ih ⊢ <;>
      omega

/-! ## C3 -/

/-- C3: the risk level of every clause is one of `low`, `moderate`, `attention`,
and consequently the three risk counts computed by `AnalysisPanel` sum to
the total number of clauses. -/
theorem risk_level_trichotomy_and_counts :
    (∀ c : ClauseSummary,
      c.risk_level = .low ∨ c.risk_level = .moderate ∨ c.risk_level = .attention)
    ∧ ∀ clauses : List ClauseSummary,
        highRiskCount clauses + moderateRiskCount clauses + lowRiskCount clauses
          = totalClauses clauses := by
  constructor
  · intro c
    rcases c.risk_level <;> simp
  · exact riskCounts_sum

/-! ## C8 -/

/-- C8: `riskScore` is `0` on the empty list and always an integer in
`[0, 100]`; the weighted sum never exceeds `totalClauses * 3`. -/
theorem risk_score_in_range :
    riskScore [] = 0
    ∧ ∀ clauses : List ClauseSummary,
        0 ≤ riskScore clauses ∧ riskScore clauses ≤ 100
        ∧ weightedRiskSum clauses ≤ (totalClauses clauses : ℚ) * 3 := by
  constructor
  · simp [riskScore, totalClauses]
  · intro clauses
    have hsum := riskCounts_sum clauses
    have hcast : (highRiskCount clauses : ℚ) + (moderateRiskCount clauses : ℚ)
        + (lowRiskCount clauses : ℚ) = (totalClauses clauses : ℚ) := by
      exact_mod_cast hsum
    have hh : (0 : ℚ) ≤ (highRiskCount clauses : ℚ) := Nat.cast_nonneg _
    have hm : (0 : ℚ) ≤ (moderateRiskCount clauses : ℚ) := Nat.cast_nonneg _
    have hl : (0 : ℚ) ≤ (lowRiskCount clauses : ℚ) := Nat.cast_nonneg _
    have hw_le : weightedRiskSum clauses ≤ (totalClauses clauses : ℚ) * 3 := by
      unfold weightedRiskSum
      nlinarith [hcast, hh, hm, hl]
    have hw_nonneg : 0 ≤ weightedRiskSum clauses := by
      unfold weightedRiskSum
      nlinarith [hh, hm, hl]
    refine ⟨?_, ?_, hw_le⟩
    · unfold riskScore
      split
      · next ht =>
        have ht3 : (0 : ℚ) < (totalClauses clauses : ℚ) * 3 := by
          have : (0 : ℚ) < (totalClauses clauses : ℚ) := by exact_mod_cast ht
          linarith
        unfold jsRound
        refine Int.le_floor.mpr ?_
        have hx : 0 ≤ weightedRiskSum clauses / ((totalClauses clauses : ℚ) * 3) * 100 := by
          positivity
        push_cast
        linarith
      · exact le_refl 0
    · unfold riskScore
      split
      · next ht =>
        have ht3 : (0 : ℚ) < (totalClauses clauses : ℚ) * 3 := by
          have : (0 : ℚ) < (totalClauses clauses : ℚ) := by exact_mod_cast ht
          linarith
        have hratio : weightedRiskSum clauses / ((totalClauses clauses : ℚ) * 3) ≤ 1 :=
          (div_le_one ht3).mpr hw_le
        have hx : weightedRiskSum clauses / ((totalClauses clauses : ℚ) * 3) * 100 ≤ 100 := by
          nlinarith [hratio]
        unfold jsRound
        have hlt : ⌊weightedRiskSum clauses / ((totalClauses clauses : ℚ) * 3) * 100 + 1 / 2⌋
            < (101 : ℤ) := by
          refine Int.floor_lt.mpr ?_
          push_cast
          linarith
        omega
      · norm_num

/-! ## C10 -/

/-- The empty string occurs in every string. -/
theorem listIncludes_nil (l : List Char) : listIncludes [] l = true := by
  induction l with
  | nil => rfl
  | cons c rest ih => simp [listIncludes, ih]

/-- C10: filtering the documents with the empty query is the identity, and
in general the filter keeps exactly the documents whose lowercased filename
contains the lowercased query, as a subsequence of the original list (so in
their original order). -/
theorem filtered_documents_spec :
    (∀ documents : List Document, filteredDocuments documents "" = documents)
    ∧ ∀ (documents : List Document) (searchQuery : String),
        List.Sublist (filteredDocuments documents searchQuery) documents
        ∧ ∀ d : Document,
            d ∈ filteredDocuments documents searchQuery ↔
              d ∈ documents
                ∧ strIncludes (jsToLower d.filename) (jsToLower searchQuery) = true := by
  refine ⟨?_, ?_⟩
  · intro documents
    unfold filteredDocuments
    refine List.filter_eq_self.mpr ?_
    intro d _
    have hq : (jsToLower "").data = [] := by decide
    unfold strIncludes
    rw [hq]
    exact listIncludes_nil _
  · intro documents searchQuery
    exact ⟨List.filter_sublist _, fun d => List.mem_filter⟩

/-! ## C5 -/

/-- C5: in a browser context the token lifecycle round-trips through
storage: `getAuthToken` after `setAuthToken t` yields `t` and after
`clearAuthToken` yields `null`; `setAuthToken` writes both the
localStorage entry and the `auth_token` cookie, and `clearAuthToken`
removes both. -/
theorem auth_token_roundtrip (b : Browser) (t : String) (h : b.hasWindow = true) :
    getAuthToken (setAuthToken b t) = some t
    ∧ getAuthToken (clearAuthToken b) = none
    ∧ (setAuthToken b t).localStore "token" = some t
    ∧ (setAuthToken b t).authTokenCookie = some t
    ∧ (clearAuthToken b).localStore "token" = none
    ∧ (clearAuthToken b).authTokenCookie = none := by
  simp [getAuthToken, setAuthToken, clearAuthToken, objSet, objRemove, h]

/-- Witness for C5 at a concrete browser and token. -/
theorem auth_token_roundtrip_witness :
    getAuthToken (setAuthToken demoBrowser "tok") = some "tok"
    ∧ getAuthToken (clearAuthToken demoBrowser) = none
    ∧ (setAuthToken demoBrowser "tok").localStore "token" = some "tok"
    ∧ (setAuthToken demoBrowser "tok").authTokenCookie = some "tok"
    ∧ (clearAuthToken demoBrowser).localStore "token" = none
    ∧ (clearAuthToken demoBrowser).authTokenCookie = none :=
  auth_token_roundtrip demoBrowser "tok" rfl

/-! ## C6 (corrected) -/

/-- C6 counterexample: a stored token that is the empty string is present
in storage (`getAuthToken` is not `null`), yet `authFetch` attaches no
`Authorization` header, because `if (token)` tests JS truthiness. -/
theorem auth_header_counterexample :
    getAuthToken emptyTokenBrowser ≠ none
    ∧ authFetchHeaders emptyTokenBrowser (fun _ => none) false false "Authorization" = none := by
  constructor
  · simp [getAuthToken, emptyTokenBrowser]
  · simp [authFetchHeaders, getAuthToken, emptyTokenBrowser, jsTruthyOptStr]

/-- C6 (amended): `authFetch` attaches `Authorization: Bearer <token>`
exactly when the stored token is truthy (non-null and non-empty), leaves
the `Authorization` header given by the caller untouched otherwise, clears the stored
token and user on a 401 response, and leaves the browser state unchanged
on any other status. -/
theorem auth_fetch_header_and_401 (b : Browser) (optionHeaders : String → Option String)
    (hasBody isFormDataBody : Bool) :
    (jsTruthyOptStr (getAuthToken b) = true →
      authFetchHeaders b optionHeaders hasBody isFormDataBody "Authorization"
        = some ("Bearer " ++ (getAuthToken b).getD ""))
    ∧ (jsTruthyOptStr (getAuthToken b) = false →
      authFetchHeaders b optionHeaders hasBody isFormDataBody "Authorization"
        = optionHeaders "Authorization")
    ∧ authFetchAfter b 401 = (clearAuthToken b, b.hasWindow)
    ∧ (∀ status : Nat, status ≠ 401 → authFetchAfter b status = (b, false))
    ∧ (b.hasWindow = true →
        (authFetchAfter b 401).1.localStore "token" = none
        ∧ (authFetchAfter b 401).1.localStore "user" = none) := by
  refine ⟨?_, ?_, ?_, ?_, ?_⟩
  · intro htok
    unfold authFetchHeaders
    simp only [htok, if_true]
    cases hasBody <;> cases isFormDataBody <;>
      simp [objSet]
  · intro htok
    unfold authFetchHeaders
    simp only [htok, if_false]
    cases hasBody <;> cases isFormDataBody <;>
      simp [objSet]
  · simp [authFetchAfter]
  · intro status hs
    simp [authFetchAfter, hs]
  · intro hw
    simp [authFetchAfter, clearAuthToken, objRemove, hw]

/-- Witness for C6 at a concrete browser holding the token `"tok"`. -/
theorem auth_fetch_header_and_401_witness :
    authFetchHeaders tokenBrowser (fun _ => none) false false "Authorization"
      = some ("Bearer " ++ "tok")
    ∧ (authFetchAfter tokenBrowser 401).1.localStore "token" = none
    ∧ authFetchAfter tokenBrowser 200 = (tokenBrowser, false) := by
  have h := auth_fetch_header_and_401 tokenBrowser (fun _ => none) false false
  refine ⟨?_, ((h.2.2.2.2 rfl)).1, h.2.2.2.1 200 (by omega)⟩
  have h1 := h.1 (by simp [getAuthToken, tokenBrowser, jsTruthyOptStr])
  simpa [getAuthToken, tokenBrowser] using h1

/-! ## C7 -/

/-- C7: under the spec invariant that a session is tied to at least one
document, the first document id exists and the sidebar chat link is built
from it. -/
theorem session_first_doc_link (s : ChatSession) (h : SessionWellFormed s) :
    ∃ id, s.document_ids.head? = some id
      ∧ sidebarChatHref s = "/chat?doc=" ++ id := by
  rcases hd : s.document_ids with _ | ⟨a, rest⟩
  · exact absurd hd h
  · refine ⟨a, by simp [hd], ?_⟩
    by_cases ha : a = ""
    · simp [sidebarChatHref, hd, ha]
    · simp [sidebarChatHref, hd, ha]

/-- Witness for C7 at a concrete session. -/
theorem session_first_doc_link_witness :
    ∃ id, demoSession.document_ids.head? = some id
      ∧ sidebarChatHref demoSession = "/chat?doc=" ++ id :=
  session_first_doc_link demoSession (by simp [SessionWellFormed, demoSession])

/-! ## C4 (corrected) -/

/-- An invocation that schedules a retry sets no messages. -/
theorem retry_has_no_messages (r : InitialAnalysisResponse)
    (h : (fetchDocumentAnalysisStep r).retryDelayMs.isSome = true) :
    (fetchDocumentAnalysisStep r).messagesSet = none := by
  unfold fetchDocumentAnalysisStep at h ⊢
  split at h <;> simp_all <;> split at h <;> simp_all <;> split at h <;> simp_all

/-- C4 counterexample: an ok response whose `analysis` is the empty string
is non-null, yet with status `"processing"` the chat page still schedules
a 2-second retry and shows no initial message — `if (data.analysis)`
tests JS truthiness, not non-nullness. -/
theorem polling_counterexample :
    emptyAnalysisResponse.analysis ≠ none
    ∧ (fetchDocumentAnalysisStep emptyAnalysisResponse).retryDelayMs = some 2000
    ∧ (fetchDocumentAnalysisStep emptyAnalysisResponse).messagesSet = none := by
  refine ⟨by simp [emptyAnalysisResponse], ?_, ?_⟩ <;>
    simp [fetchDocumentAnalysisStep, emptyAnalysisResponse, jsTruthyOptStr]

/-- C4 (amended): while an ok response carries a falsy (null or empty)
analysis and status `"processing"`, `fetchDocumentAnalysis` schedules a
retry after 2000 ms and sets no messages; as soon as a truthy (non-empty)
analysis is returned it is shown as the single initial assistant message
and no retry is scheduled; a truthy analysis never leads to a reschedule;
and along any polling trace every invocation except possibly the last one
scheduled a retry and showed no messages. -/
theorem polling_behavior :
    (∀ r : InitialAnalysisResponse,
      (r.ok = true → jsTruthyOptStr r.analysis = false → r.status = "processing" →
        fetchDocumentAnalysisStep r
          = { documentInfoSet := true, messagesSet := none, retryDelayMs := some 2000 })
      ∧ (r.ok = true → jsTruthyOptStr r.analysis = true →
        fetchDocumentAnalysisStep r
          = { documentInfoSet := true
              messagesSet :=
                some [{ id := "initial", role := "assistant", content := r.analysis.getD "" }]
              retryDelayMs := none })
      ∧ (jsTruthyOptStr r.analysis = true →
        (fetchDocumentAnalysisStep r).retryDelayMs = none))
    ∧ ∀ rs : List InitialAnalysisResponse,
        ((pollTrace rs).dropLast.all fun e => e.retryDelayMs.isSome) = true
        ∧ ((pollTrace rs).dropLast.all fun e => e.messagesSet.isNone) = true := by
  constructor
  · intro r
    refine ⟨?_, ?_, ?_⟩
    · intro hok hfalsy hst
      simp [fetchDocumentAnalysisStep, hok, hfalsy, hst]
    · intro hok htruthy
      simp [fetchDocumentAnalysisStep, hok, htruthy]
    · intro htruthy
      unfold fetchDocumentAnalysisStep
      split
      · simp [htruthy]
      · rfl
  · intro rs
    induction rs with
    | nil => simp [pollTrace]
    | cons r rest ih =>
      have hstep : pollTrace (r :: rest)
          = if (fetchDocumentAnalysisStep r).retryDelayMs.isSome = true
            then fetchDocumentAnalysisStep r :: pollTrace rest
            else [fetchDocumentAnalysisStep r] := rfl
      rw [hstep]
      by_cases hretry : (fetchDocumentAnalysisStep r).retryDelayMs.isSome = true
      · rw [if_pos hretry]
        rcases htail : pollTrace rest with _ | ⟨e, es⟩
        · simp
        · rw [htail] at ih
          simp only [List.dropLast_cons₂, List.all_cons] at ih ⊢
          exact ⟨by simp [hretry, ih.1], by simp [retry_has_no_messages r hretry, ih.2]⟩
      · rw [if_neg hretry]
        simp

/-- Witness for C4 at concrete responses: a processing response without
analysis schedules the 2-second retry; a completed response with analysis
does not reschedule. -/
theorem polling_behavior_witness :
    fetchDocumentAnalysisStep processingResponse
      = { documentInfoSet := true, messagesSet := none, retryDelayMs := some 2000 }
    ∧ (fetchDocumentAnalysisStep completedResponse).retryDelayMs = none :=
  ⟨(polling_behavior.1 processingResponse).1 rfl rfl rfl,
    (polling_behavior.1 completedResponse).2.2 (by simp [completedResponse, jsTruthyOptStr])⟩

/-! ## Readability loop lemmas -/

/-- A clause without metrics leaves the accumulator unchanged. -/
theorem statsStep_none (acc : StatsAcc) (c : ClauseSummary)
    (hm : c.readability_metrics = none) : statsStep acc c = acc := by
  simp [statsStep, hm]

/-- The loop adds the computed grade to the running total. -/
theorem statsStep_totalGrade (acc : StatsAcc) (c : ClauseSummary) (m : ReadabilityMetrics)
    (hm : c.readability_metrics = some m) :
    (statsStep acc c).totalOriginalGrade = acc.totalOriginalGrade + gradeOf m := by
  simp only [statsStep, hm, gradeOf]
  split_ifs <;> rfl

/-- The loop adds the computed Flesch score to the running total. -/
theorem statsStep_totalFlesch (acc : StatsAcc) (c : ClauseSummary) (m : ReadabilityMetrics)
    (hm : c.readability_metrics = some m) :
    (statsStep acc c).totalFleschScore = acc.totalFleschScore + fleschOf m := by
  simp only [statsStep, hm, fleschOf]
  split_ifs <;> rfl

/-- The loop counts every metric-bearing clause. -/
theorem statsStep_validClauses (acc : StatsAcc) (c : ClauseSummary) (m : ReadabilityMetrics)
    (hm : c.readability_metrics = some m) :
    (statsStep acc c).validClauses = acc.validClauses + 1 := by
  simp only [statsStep, hm]
  split_ifs <;> rfl

/-- The loop appends to the difficult list exactly when the computed grade
exceeds 13, with level `expert` above 16 and `difficult` otherwise. -/
theorem statsStep_difficultList (acc : StatsAcc) (c : ClauseSummary) (m : ReadabilityMetrics)
    (hm : c.readability_metrics = some m) :
    (statsStep acc c).difficultClausesList
      = acc.difficultClausesList
        ++ (if 16 < gradeOf m then
              [{ clause := c, grade := gradeOf m, fleschScore := fleschOf m, level := .expert }]
            else if 13 < gradeOf m then
              [{ clause := c, grade := gradeOf m, fleschScore := fleschOf m,
                  level := .difficult }]
            else []) := by
  simp only [statsStep, hm, gradeOf, fleschOf]
  split_ifs <;> simp

/-- `difficultEntries` over a cons with metrics. -/
theorem difficultEntries_cons_some (c : ClauseSummary) (cs : List ClauseSummary)
    (m : ReadabilityMetrics) (hm : c.readability_metrics = some m) :
    difficultEntries (c :: cs)
      = (if 16 < gradeOf m then
            [{ clause := c, grade := gradeOf m, fleschScore := fleschOf m, level := .expert }]
          else if 13 < gradeOf m then
            [{ clause := c, grade := gradeOf m, fleschScore := fleschOf m, level := .difficult }]
          else [])
        ++ difficultEntries cs := by
  have hme : metricEntries (c :: cs) = (c, m) :: metricEntries cs := by
    simp [metricEntries, hm]
  unfold difficultEntries
  rw [hme, List.filterMap_cons]
  split_ifs with h16 h13 <;> simp [h16]

/-- Closed form of one `forEach` pass: the fold accumulates the grade and
Flesch sums, the metric-clause count and the difficult-clause list of the
traversed clauses. -/
theorem statsFold_spec (cs : List ClauseSummary) (acc : StatsAcc) :
    (cs.foldl statsStep acc).totalOriginalGrade = acc.totalOriginalGrade + gradeSum cs
    ∧ (cs.foldl statsStep acc).totalFleschScore = acc.totalFleschScore + fleschSum cs
    ∧ (cs.foldl statsStep acc).validClauses = acc.validClauses + validCount cs
    ∧ (cs.foldl statsStep acc).difficultClausesList
        = acc.difficultClausesList ++ difficultEntries cs := by
  induction cs generalizing acc with
  | nil =>
    simp [gradeSum, fleschSum, validCount, difficultEntries, metricEntries]
  | cons c cs ih =>
    rw [List.foldl_cons]
    rcases hm : c.readability_metrics with _ | m
    · rw [statsStep_none acc c hm]
      obtain ⟨ih1, ih2, ih3, ih4⟩ := ih acc
      have hme : metricEntries (c :: cs) = metricEntries cs := by
        simp [metricEntries, hm]
      have hde : difficultEntries (c :: cs) = difficultEntries cs := by
        simp [difficultEntries, hme]
      exact ⟨by rw [ih1]; simp [gradeSum, hme], by rw [ih2]; simp [fleschSum, hme],
        by rw [ih3]; simp [validCount, hme], by rw [ih4, hde]⟩
    · obtain ⟨ih1, ih2, ih3, ih4⟩ := ih (statsStep acc c)
      have hme : metricEntries (c :: cs) = (c, m) :: metricEntries cs := by
        simp [metricEntries, hm]
      refine ⟨?_, ?_, ?_, ?_⟩
      · rw [ih1, statsStep_totalGrade acc c m hm]
        simp [gradeSum, hme]
        ring
      · rw [ih2, statsStep_totalFlesch acc c m hm]
        simp [fleschSum, hme]
        ring
      · rw [ih3, statsStep_validClauses acc c m hm]
        simp [validCount, hme]
        omega
      · rw [ih4, statsStep_difficultList acc c m hm,
          difficultEntries_cons_some c cs m hm, List.append_assoc]

/-! ## C2 (corrected) -/

/-- C2 counterexample: for a single clause whose `original_grade` is `0`,
the code reports an average grade of `12` — `original_grade || 12`
replaces the falsy zero by the default — while the arithmetic mean of the
original grades of the metric-bearing clauses is `0`. -/
theorem average_grade_counterexample :
    (readabilityStats [zeroGradeClause]).averageGrade
      ≠ claimedAverageGrade [zeroGradeClause]
    ∧ (readabilityStats [zeroGradeClause]).averageFleschScore
      ≠ claimedAverageFleschScore [zeroGradeClause] := by
  have h1 : (readabilityStats [zeroGradeClause]).averageGrade = 12 := by
    rw [readabilityStats, if_neg (by simp)]
    simp [statsStep, initStatsAcc, zeroGradeClause, zeroMetrics, jsOrQ]
    norm_num
  have h2 : claimedAverageGrade [zeroGradeClause] = 0 := by
    simp [claimedAverageGrade, metricEntries, validCount, zeroGradeClause, zeroMetrics]
  have h3 : (readabilityStats [zeroGradeClause]).averageFleschScore = 50 := by
    rw [readabilityStats, if_neg (by simp)]
    simp [statsStep, initStatsAcc, zeroGradeClause, zeroMetrics, jsOrQ]
    norm_num
  have h4 : claimedAverageFleschScore [zeroGradeClause] = 0 := by
    simp [claimedAverageFleschScore, metricEntries, validCount, zeroGradeClause, zeroMetrics]
  rw [h1, h2, h3, h4]
  norm_num

/-- C2 (amended): for a non-empty clause list with at least one
metric-bearing clause, `averageGrade` is the arithmetic mean of the
computed grades — `original_grade` with a zero value replaced by `12` —
over the metric-bearing clauses, and `averageFleschScore` is likewise the
mean of the computed Flesch scores (zero replaced by `50`); clauses
without `readability_metrics` are excluded from both means. -/
theorem averages_are_defaulted_means (cs : List ClauseSummary) (hne : cs ≠ [])
    (hval : 0 < validCount cs) :
    (readabilityStats cs).averageGrade = gradeSum cs / (validCount cs : ℚ)
    ∧ (readabilityStats cs).averageFleschScore = fleschSum cs / (validCount cs : ℚ) := by
  obtain ⟨h1, h2, h3, _⟩ := statsFold_spec cs initStatsAcc
  rw [readabilityStats, if_neg hne]
  have hacc1 : (cs.foldl statsStep initStatsAcc).totalOriginalGrade = gradeSum cs := by
    rw [h1]; simp [initStatsAcc]
  have hacc2 : (cs.foldl statsStep initStatsAcc).totalFleschScore = fleschSum cs := by
    rw [h2]; simp [initStatsAcc]
  have hacc3 : (cs.foldl statsStep initStatsAcc).validClauses = validCount cs := by
    rw [h3]; simp [initStatsAcc]
  constructor
  · show (if 0 < (cs.foldl statsStep initStatsAcc).validClauses then
        (cs.foldl statsStep initStatsAcc).totalOriginalGrade
          / ((cs.foldl statsStep initStatsAcc).validClauses : ℚ)
      else 12) = gradeSum cs / (validCount cs : ℚ)
    rw [hacc1, hacc3, if_pos hval]
  · show (if 0 < (cs.foldl statsStep initStatsAcc).validClauses then
        (cs.foldl statsStep initStatsAcc).totalFleschScore
          / ((cs.foldl statsStep initStatsAcc).validClauses : ℚ)
      else 50) = fleschSum cs / (validCount cs : ℚ)
    rw [hacc2, hacc3, if_pos hval]

/-- Witness for C2 (amended) at a concrete clause list. -/
theorem averages_are_defaulted_means_witness :
    (readabilityStats demoClauses).averageGrade
      = gradeSum demoClauses / (validCount demoClauses : ℚ)
    ∧ (readabilityStats demoClauses).averageFleschScore
      = fleschSum demoClauses / (validCount demoClauses : ℚ) :=
  averages_are_defaulted_means demoClauses (by simp [demoClauses])
    (by simp [validCount, metricEntries, demoClauses, demoClauseA, demoClauseB, hardMetrics])

/-! ## C9 -/

/-- C9: `difficultClauses` is a permutation of the metric-bearing clauses
whose computed grade exceeds 13 (level `expert` above 16, `difficult`
otherwise, in document order before sorting), arranged in non-increasing
order of grade. -/
theorem difficult_clauses_sorted_filter :
    ∀ cs : List ClauseSummary,
      ((readabilityStats cs).difficultClauses).Perm (difficultEntries cs)
      ∧ ((readabilityStats cs).difficultClauses).Pairwise fun a b => b.grade ≤ a.grade := by
  intro cs
  by_cases hne : cs = []
  · subst hne
    constructor
    · simp [readabilityStats, difficultEntries, metricEntries]
    · simp [readabilityStats]
  · have hlist : (cs.foldl statsStep initStatsAcc).difficultClausesList
        = difficultEntries cs := by
      rw [(statsFold_spec cs initStatsAcc).2.2.2]
      simp [initStatsAcc]
    have hdc : (readabilityStats cs).difficultClauses
        = (difficultEntries cs).mergeSort gradeDescLE := by
      rw [readabilityStats, if_neg hne]
      show (cs.foldl statsStep initStatsAcc).difficultClausesList.mergeSort gradeDescLE
        = (difficultEntries cs).mergeSort gradeDescLE
      rw [hlist]
    rw [hdc]
    constructor
    · exact List.mergeSort_perm _ _
    · have htrans : ∀ a b c : ClauseReadability,
          gradeDescLE a b = true → gradeDescLE b c = true → gradeDescLE a c = true := by
        intro a b c hab hbc
        simp only [gradeDescLE, decide_eq_true_eq] at hab hbc ⊢
        exact le_trans hbc hab
      have htotal : ∀ a b : ClauseReadability,
          (gradeDescLE a b || gradeDescLE b a) = true := by
        intro a b
        simp only [gradeDescLE, Bool.or_eq_true, decide_eq_true_eq]
        exact le_total b.grade a.grade
      have hs := List.sorted_mergeSort htrans htotal (difficultEntries cs)
      exact hs.imp fun hab => by
        simpa [gradeDescLE, decide_eq_true_eq] using hab

/-! ## Heatmap grouping lemmas -/

/-- Inserting into the inner map appends to the matching risk bucket and
leaves every other bucket unchanged. -/
theorem rmLookup_rmInsert (rm : RiskMap) (rl rl2 : RiskLevel) (c : ClauseSummary) :
    rmLookup (rmInsert rm rl c) rl2
      = if rl = rl2 then rmLookup rm rl2 ++ [c] else rmLookup rm rl2 := by
  induction rm with
  | nil =>
    by_cases h : rl = rl2 <;> simp [rmInsert, rmLookup, h]
  | cons kv rest ih =>
    obtain ⟨k, v⟩ := kv
    by_cases hk : k = rl
    · subst hk
      by_cases h2 : k = rl2 <;> simp [rmInsert, rmLookup, h2]
    · by_cases h2 : k = rl2
      · subst h2
        have hne : ¬ rl = k := fun h => hk h.symm
        simp [rmInsert, rmLookup, hk, hne]
      · simp [rmInsert, rmLookup, hk, h2, ih]

/-- Inserting into the outer map updates the risk map of the matching category
and leaves every other category unchanged. -/
theorem cmLookup_cmInsert (cm : CategoryRiskMap) (cat cat2 : String) (rl : RiskLevel)
    (c : ClauseSummary) :
    cmLookup (cmInsert cm cat rl c) cat2
      = if cat = cat2 then rmInsert (cmLookup cm cat2) rl c else cmLookup cm cat2 := by
  induction cm with
  | nil =>
    by_cases h : cat = cat2 <;> simp [cmInsert, cmLookup, h]
  | cons kv rest ih =>
    obtain ⟨k, v⟩ := kv
    by_cases hk : k = cat
    · subst hk
      by_cases h2 : k = cat2 <;> simp [cmInsert, cmLookup, h2]
    · by_cases h2 : k = cat2
      · subst h2
        have hne : ¬ cat = k := fun h => hk h.symm
        simp [cmInsert, cmLookup, hk, hne]
      · simp [cmInsert, cmLookup, hk, h2, ih]

/-- The bucket the grouping loop builds for a `(category, risk level)` key
is exactly the subsequence of processed clauses carrying that key, behind
any clauses already accumulated for it. -/
theorem lookup_foldl_eq_filter (cs : List ClauseSummary) (cm : CategoryRiskMap)
    (cat : String) (rl : RiskLevel) :
    rmLookup (cmLookup (cs.foldl (fun m c => cmInsert m (defaultCategory c) c.risk_level c) cm)
        cat) rl
      = rmLookup (cmLookup cm cat) rl
        ++ cs.filter fun c => decide (defaultCategory c = cat ∧ c.risk_level = rl) := by
  induction cs generalizing cm with
  | nil => simp
  | cons c cs ih =>
    rw [List.foldl_cons, ih, cmLookup_cmInsert, List.filter_cons]
    by_cases h1 : defaultCategory c = cat
    · rw [if_pos h1, rmLookup_rmInsert]
      by_cases h2 : c.risk_level = rl
      · rw [if_pos h2]
        simp [h1, h2, List.append_assoc]
      · rw [if_neg h2]
        simp [h2]
    · rw [if_neg h1]
      simp [h1]

/-- The bucket for a `(category, risk level)` key in the built map is the
filter of the clause list by that key. -/
theorem lookup_build_eq_filter (cs : List ClauseSummary) (cat : String) (rl : RiskLevel) :
    rmLookup (cmLookup (buildCategoryRiskMap cs) cat) rl
      = cs.filter fun c => decide (defaultCategory c = cat ∧ c.risk_level = rl) := by
  have h := lookup_foldl_eq_filter cs [] cat rl
  simpa [buildCategoryRiskMap, cmLookup, rmLookup] using h

/-- The keys after an outer-map insertion: unchanged if the category is
already present, else the category is appended. -/
theorem cmInsert_keys (cm : CategoryRiskMap) (cat : String) (rl : RiskLevel)
    (c : ClauseSummary) :
    (cmInsert cm cat rl c).map Prod.fst
      = if cat ∈ cm.map Prod.fst then cm.map Prod.fst else cm.map Prod.fst ++ [cat] := by
  induction cm with
  | nil => simp [cmInsert]
  | cons kv rest ih =>
    obtain ⟨k, v⟩ := kv
    by_cases hk : k = cat
    · subst hk
      simp [cmInsert]
    · have hck : ¬ cat = k := fun h => hk h.symm
      have hstep : cmInsert ((k, v) :: rest) cat rl c = (k, v) :: cmInsert rest cat rl c := by
        simp [cmInsert, hk]
      have hmemiff : cat ∈ (((k, v) :: rest).map Prod.fst) ↔ cat ∈ rest.map Prod.fst := by
        simp [hck]
      by_cases hmem : cat ∈ rest.map Prod.fst
      · rw [if_pos (hmemiff.mpr hmem), hstep]
        simp [ih, hmem]
      · rw [if_neg (fun hh => hmem (hmemiff.mp hh)), hstep]
        simp [ih, hmem]

/-- Folding preserves key distinctness. -/
theorem foldl_keys_nodup (cs : List ClauseSummary) (cm : CategoryRiskMap)
    (h : (cm.map Prod.fst).Nodup) :
    (((cs.foldl (fun m c => cmInsert m (defaultCategory c) c.risk_level c) cm)).map
      Prod.fst).Nodup := by
  induction cs generalizing cm with
  | nil => exact h
  | cons c cs ih =>
    rw [List.foldl_cons]
    refine ih _ ?_
    rw [cmInsert_keys]
    split
    · exact h
    · next hmem =>
      refine List.nodup_append.mpr ⟨h, List.nodup_singleton _, ?_⟩
      intro x hx hx2
      rw [List.mem_singleton] at hx2
      subst hx2
      exact hmem hx

/-- Folding only adds keys. -/
theorem mem_keys_foldl (cs : List ClauseSummary) (cm : CategoryRiskMap) (k : String)
    (h : k ∈ cm.map Prod.fst) :
    k ∈ ((cs.foldl (fun m c => cmInsert m (defaultCategory c) c.risk_level c) cm)).map
      Prod.fst := by
  induction cs generalizing cm with
  | nil => exact h
  | cons c cs ih =>
    rw [List.foldl_cons]
    refine ih _ ?_
    rw [cmInsert_keys]
    split
    · exact h
    · exact List.mem_append_left _ h

/-- The defaulted category of every processed clause is among the keys. -/
theorem clause_cat_mem_foldl_keys (cs : List ClauseSummary) (cm : CategoryRiskMap)
    (c : ClauseSummary) :
    c ∈ cs →
      defaultCategory c
        ∈ ((cs.foldl (fun m c => cmInsert m (defaultCategory c) c.risk_level c) cm)).map
          Prod.fst := by
  induction cs generalizing cm with
  | nil =>
    intro hc
    cases hc
  | cons a cs ih =>
    intro hc
    rw [List.foldl_cons]
    rcases List.mem_cons.mp hc with rfl | hmem
    · refine mem_keys_foldl cs _ _ ?_
      rw [cmInsert_keys]
      split
      · assumption
      · exact List.mem_append_right _ (List.mem_singleton.mpr rfl)
    · exact ih _ hmem

/-! ## Counting lemmas for the heatmap totals -/

/-- Sums distribute over pointwise addition of two maps. -/
theorem sum_map_add_nat {α : Type} (f g : α → ℕ) (l : List α) :
    (l.map fun x => f x + g x).sum = (l.map f).sum + (l.map g).sum := by
  induction l with
  | nil => rfl
  | cons x l ih =>
    simp [ih]
    omega

/-- The sum of a flatMap is the sum of the per-element sums. -/
theorem sum_flatMap_nat {α : Type} (l : List α) (f : α → List ℕ) :
    (l.flatMap f).sum = (l.map fun a => (f a).sum).sum := by
  induction l with
  | nil => rfl
  | cons x l ih => simp [List.flatMap_cons, List.sum_append, ih]

/-- Summing the indicator of equality with `a` counts occurrences of `a`. -/
theorem sum_ite_eq_count (a : String) (l : List String) :
    (l.map fun b => if a = b then 1 else 0).sum = l.count a := by
  induction l with
  | nil => rfl
  | cons b l ih =>
    by_cases h : a = b
    · subst h
      simp [List.count_cons, ih, Nat.add_comm]
    · have hba : ¬ b = a := fun hh => h hh.symm
      simp [List.count_cons, ih, h, hba]

/-- The three risk levels partition the clauses of each category. -/
theorem filter_risk_partition (cs : List ClauseSummary) (cat : String) :
    (cs.filter fun c => decide (defaultCategory c = cat ∧ c.risk_level = RiskLevel.low)).length
    + (cs.filter fun c =>
        decide (defaultCategory c = cat ∧ c.risk_level = RiskLevel.moderate)).length
    + (cs.filter fun c =>
        decide (defaultCategory c = cat ∧ c.risk_level = RiskLevel.attention)).length
    = (cs.filter fun c => decide (defaultCategory c = cat)).length := by
  induction cs with
  | nil => rfl
  | cons c cs ih =>
    by_cases hc : defaultCategory c = cat
    · rcases hrl : c.risk_level <;>
        simp [List.filter_cons, hc, hrl] at ih ⊢ <;>
        omega
    · simp [List.filter_cons, hc] at ih ⊢
      omega

/-- Buckets over a duplicate-free, covering list of categories sum to the
total number of clauses. -/
theorem sum_filter_lengths (cats : List String) (cs : List ClauseSummary)
    (hnd : cats.Nodup) (hmem : ∀ c ∈ cs, defaultCategory c ∈ cats) :
    (cats.map fun cat => (cs.filter fun c => decide (defaultCategory c = cat)).length).sum
      = cs.length := by
  induction cs with
  | nil => simp
  | cons c cs ih =>
    have hc : defaultCategory c ∈ cats := hmem c (List.mem_cons_self c cs)
    have hrest : ∀ x ∈ cs, defaultCategory x ∈ cats :=
      fun x hx => hmem x (List.mem_cons_of_mem _ hx)
    have hstep : ∀ cat : String,
        ((c :: cs).filter fun x => decide (defaultCategory x = cat)).length
          = (if defaultCategory c = cat then 1 else 0)
            + (cs.filter fun x => decide (defaultCategory x = cat)).length := by
      intro cat
      rw [List.filter_cons]
      by_cases h : defaultCategory c = cat <;> simp [h, Nat.add_comm]
    calc (cats.map fun cat =>
          ((c :: cs).filter fun x => decide (defaultCategory x = cat)).length).sum
        = (cats.map fun cat => (if defaultCategory c = cat then 1 else 0)
            + (cs.filter fun x => decide (defaultCategory x = cat)).length).sum :=
          congrArg List.sum (List.map_congr_left fun cat _ => hstep cat)
      _ = (cats.map fun cat => if defaultCategory c = cat then 1 else 0).sum
            + (cats.map fun cat =>
                (cs.filter fun x => decide (defaultCategory x = cat)).length).sum :=
          sum_map_add_nat _ _ cats
      _ = cats.count (defaultCategory c) + cs.length := by rw [sum_ite_eq_count, ih hrest]
      _ = 1 + cs.length := by rw [List.count_eq_one_of_mem hnd hc]
      _ = (c :: cs).length := by simp [Nat.add_comm]

/-- The `(category, risk level)` grid over distinct categories has no
duplicate keys. -/
theorem keyGrid_nodup (cats : List String) (h : cats.Nodup) :
    (cats.flatMap fun cat => RISK_LEVELS.map fun rl => (cat, rl)).Nodup := by
  induction cats with
  | nil => simp
  | cons c rest ih =>
    rw [List.flatMap_cons]
    rw [List.nodup_cons] at h
    refine List.nodup_append.mpr ⟨?_, ih h.2, ?_⟩
    · simp [RISK_LEVELS]
    · intro x hx hx2
      rw [List.mem_map] at hx
      obtain ⟨rl, _, rfl⟩ := hx
      rw [List.mem_flatMap] at hx2
      obtain ⟨c2, hc2, hx2⟩ := hx2
      rw [List.mem_map] at hx2
      obtain ⟨rl2, _, heq⟩ := hx2
      have hcc : c2 = c := congrArg Prod.fst heq
      exact h.1 (hcc ▸ hc2)

/-! ## C1 -/

/-- C1: each heatmap cell contains precisely the clauses whose defaulted
category and risk level match the key of the cell, its count is the size of
that bucket, the `(category, risk level)` keys of the cells are pairwise
distinct (so every clause lands in exactly one cell), and the cell counts
sum to the total number of clauses. -/
theorem heatmap_buckets (cs : List ClauseSummary) :
    (∀ cell ∈ (heatmapData cs).cells,
      cell.clauses = (cs.filter fun c =>
          decide (defaultCategory c = cell.category ∧ c.risk_level = cell.riskLevel))
      ∧ cell.count = (cs.filter fun c =>
          decide (defaultCategory c = cell.category ∧ c.risk_level = cell.riskLevel)).length)
    ∧ ((heatmapData cs).cells.map fun cell => (cell.category, cell.riskLevel)).Nodup
    ∧ ((heatmapData cs).cells.map HeatmapCell.count).sum = cs.length := by
  have hcells : (heatmapData cs).cells
      = (sortCategories ((buildCategoryRiskMap cs).map Prod.fst)).flatMap fun category =>
          RISK_LEVELS.map fun riskLevel =>
            mkHeatmapCell (buildCategoryRiskMap cs) cs.length category riskLevel := rfl
  have hperm : (sortCategories ((buildCategoryRiskMap cs).map Prod.fst)).Perm
      ((buildCategoryRiskMap cs).map Prod.fst) := List.mergeSort_perm _ _
  have hnodup_keys : (((buildCategoryRiskMap cs)).map Prod.fst).Nodup :=
    foldl_keys_nodup cs [] (by simp)
  have hcats_nodup : (sortCategories ((buildCategoryRiskMap cs).map Prod.fst)).Nodup :=
    hperm.nodup_iff.mpr hnodup_keys
  have hmem_cats : ∀ c ∈ cs,
      defaultCategory c ∈ sortCategories ((buildCategoryRiskMap cs).map Prod.fst) :=
    fun c hc => hperm.mem_iff.mpr (clause_cat_mem_foldl_keys cs [] c hc)
  have hcount : ∀ (cat : String) (rl : RiskLevel),
      (mkHeatmapCell (buildCategoryRiskMap cs) cs.length cat rl).count
        = (cs.filter fun c => decide (defaultCategory c = cat ∧ c.risk_level = rl)).length := by
    intro cat rl
    simp only [mkHeatmapCell]
    rw [lookup_build_eq_filter]
  refine ⟨?_, ?_, ?_⟩
  · intro cell hcell
    rw [hcells, List.mem_flatMap] at hcell
    obtain ⟨cat, hcat, hcell⟩ := hcell
    rw [List.mem_map] at hcell
    obtain ⟨rl, hrl, rfl⟩ := hcell
    constructor
    · simp only [mkHeatmapCell]
      exact lookup_build_eq_filter cs cat rl
    · simp only [mkHeatmapCell]
      rw [lookup_build_eq_filter cs cat rl]
  · rw [hcells]
    have hmapkey :
        (((sortCategories ((buildCategoryRiskMap cs).map Prod.fst)).flatMap fun category =>
            RISK_LEVELS.map fun riskLevel =>
              mkHeatmapCell (buildCategoryRiskMap cs) cs.length category riskLevel).map
          fun cell => (cell.category, cell.riskLevel))
          = (sortCategories ((buildCategoryRiskMap cs).map Prod.fst)).flatMap fun cat =>
              RISK_LEVELS.map fun rl => (cat, rl) := by
      rw [List.map_flatMap]
      refine congrArg _ (funext fun cat => ?_)
      rw [List.map_map]
      exact List.map_congr_left fun rl _ => by simp [mkHeatmapCell]
    rw [hmapkey]
    exact keyGrid_nodup _ hcats_nodup
  · rw [hcells, List.map_flatMap, sum_flatMap_nat]
    have hinner : ∀ cat ∈ sortCategories ((buildCategoryRiskMap cs).map Prod.fst),
        (((RISK_LEVELS.map fun riskLevel =>
              mkHeatmapCell (buildCategoryRiskMap cs) cs.length cat riskLevel).map
            HeatmapCell.count)).sum
          = (cs.filter fun c => decide (defaultCategory c = cat)).length := by
      intro cat _
      rw [List.map_map]
      simp only [RISK_LEVELS, List.map_cons, List.map_nil, List.sum_cons, List.sum_nil,
        Function.comp]
      rw [hcount cat .low, hcount cat .moderate, hcount cat .attention]
      have hpart := filter_risk_partition cs cat
      omega
    rw [List.map_congr_left hinner]
    exact sum_filter_lengths _ cs hcats_nodup hmem_cats

/-- Witness for C1: the `(Financial, attention)` cell of the sample
document is one of the heatmap cells, its bucket is the matching filter of
the clause list, and the cell counts sum to the number of clauses. -/
theorem heatmap_buckets_witness :
    (mkHeatmapCell (buildCategoryRiskMap demoClauses) demoClauses.length "Financial"
        RiskLevel.attention) ∈ (heatmapData demoClauses).cells
    ∧ (mkHeatmapCell (buildCategoryRiskMap demoClauses) demoClauses.length "Financial"
        RiskLevel.attention).clauses
      = (demoClauses.filter fun c =>
          decide (defaultCategory c
              = (mkHeatmapCell (buildCategoryRiskMap demoClauses) demoClauses.length "Financial"
                  RiskLevel.attention).category
            ∧ c.risk_level
              = (mkHeatmapCell (buildCategoryRiskMap demoClauses) demoClauses.length "Financial"
                  RiskLevel.attention).riskLevel))
    ∧ ((heatmapData demoClauses).cells.map HeatmapCell.count).sum = demoClauses.length := by
  have hkeys : (buildCategoryRiskMap demoClauses).map Prod.fst = ["Financial", "Other"] := by
    simp [buildCategoryRiskMap, demoClauses, demoClauseA, demoClauseB, defaultCategory, cmInsert]
  have hperm : (sortCategories ((buildCategoryRiskMap demoClauses).map Prod.fst)).Perm
      ((buildCategoryRiskMap demoClauses).map Prod.fst) := List.mergeSort_perm _ _
  have hmemcat : "Financial" ∈ sortCategories ((buildCategoryRiskMap demoClauses).map Prod.fst) := by
    rw [hperm.mem_iff, hkeys]
    simp
  have hmem : (mkHeatmapCell (buildCategoryRiskMap demoClauses) demoClauses.length "Financial"
      RiskLevel.attention) ∈ (heatmapData demoClauses).cells := by
    refine List.mem_flatMap.mpr ⟨"Financial", hmemcat, ?_⟩
    exact List.mem_map.mpr ⟨RiskLevel.attention, by simp [RISK_LEVELS], rfl⟩
  exact ⟨hmem, ((heatmap_buckets demoClauses).1 _ hmem).1, (heatmap_buckets demoClauses).2.2⟩

end InsightGPT
